import Mathlib

/-!
Verification of the ClawChat UDP hole-punching security core
(`src/udp_hole_punching/src`): session-key derivation (`security/encryption.py`),
packet encryption, key rotation (`security/key_rotation.py`), the Compromised
Protocol (`protocol/compromised.py`), message framing (`protocol/messages.py`)
and the hole-punch packet envelope (`networking/udp_hole_punch.py`).

Bytes are modelled as `List Nat` (each element one byte value); strings are
Lean `String`s and `strBytes` maps a string to its byte list (all strings that
occur in the protocol are ASCII, for which codepoints coincide with UTF-8
bytes).  Wall-clock times (Python `time.time()` / `int(time.time())`) are
modelled as `Int` arguments supplied by the caller; fresh randomness
(`secrets.token_bytes`) is likewise modelled as an explicit argument.

Third-party primitives: SHA-256 (`hashlib.sha256`) is implemented concretely
below (FIPS 180-4, with its round constants computed from the square/cube
roots of the first primes).  The keyed BLAKE2b MAC and AES-256-GCM come from
outside the repository and are modelled symbolically from the spec; see the
doc comments on `macBytes` and `aesgcm_encrypt`.
-/

/-- Bytes of an ASCII string: the codepoints of its characters.  (For the
ASCII strings used by this protocol this equals the UTF-8 encoding used by
Python's `str.encode()`.) -/
def strBytes (s : String) : List Nat :=
  s.data.map Char.toNat

/-- Big-endian bytes of a natural number, fixed width `w`. -/
def natToBeBytes : Nat → Nat → List Nat
  | 0, _ => []
  | w + 1, n => natToBeBytes w (n / 256) ++ [n % 256]

/-- Big-endian byte list to natural number (Python `struct.unpack("!I", ...)`). -/
def beBytesToNat (bs : List Nat) : Nat :=
  bs.foldl (fun acc b => acc * 256 + b) 0

/-! ### SHA-256 (`hashlib.sha256`), FIPS 180-4 -/

/-- 32-bit right rotation. -/
def rotr32 (n x : Nat) : Nat :=
  ((x >>> n) ||| (x <<< (32 - n))) % 4294967296

/-- The first 64 primes, sources of the SHA-256 round constants. -/
def sha256Primes : List Nat :=
  [2, 3, 5, 7, 11, 13, 17, 19, 23, 29, 31, 37, 41, 43, 47, 53,
   59, 61, 67, 71, 73, 79, 83, 89, 97, 101, 103, 107, 109, 113, 127, 131,
   137, 139, 149, 151, 157, 163, 167, 173, 179, 181, 191, 193, 197, 199, 211, 223,
   227, 229, 233, 239, 241, 251, 257, 263, 269, 271, 277, 281, 283, 293, 307, 311]

/-- Integer cube root by binary search (`fuel` bounds the iteration count). -/
def icbrtGo (n : Nat) : Nat → Nat → Nat → Nat
  | 0, lo, _ => lo
  | fuel + 1, lo, hi =>
    if hi ≤ lo + 1 then lo
    else
      let mid := (lo + hi) / 2
      if mid * mid * mid ≤ n then icbrtGo n fuel mid hi
      else icbrtGo n fuel lo mid

/-- Largest `r` with `r^3 ≤ n`. -/
def icbrt (n : Nat) : Nat :=
  icbrtGo n 130 0 (n + 2)

/-- First 32 fractional bits of the cube root of `p` (SHA-256 `K` constants). -/
def cubeRootFrac (p : Nat) : Nat :=
  icbrt (p * 2 ^ 96) % 2 ^ 32

/-- First 32 fractional bits of the square root of `p` (SHA-256 `H0`). -/
def sqrtFrac (p : Nat) : Nat :=
  Nat.sqrt (p * 2 ^ 64) % 2 ^ 32

/-- SHA-256 round constants `K`. -/
def sha256K : List Nat :=
  sha256Primes.map cubeRootFrac

/-- SHA-256 initial hash state `H0`. -/
def sha256H0 : List Nat :=
  (sha256Primes.take 8).map sqrtFrac

/-- SHA-256 message padding: append `0x80`, zeros to 56 mod 64, then the
message bit length as 8 big-endian bytes. -/
def sha256Pad (msg : List Nat) : List Nat :=
  let padLen := (119 - msg.length % 64) % 64
  msg ++ [128] ++ List.replicate padLen 0 ++ natToBeBytes 8 (8 * msg.length)

/-- Split a list into chunks of `k` (fuel-bounded; `fuel ≥ length` suffices). -/
def chunksOf (k : Nat) : Nat → List Nat → List (List Nat)
  | 0, _ => []
  | _, [] => []
  | fuel + 1, l => l.take k :: chunksOf k fuel (l.drop k)

/-- 4 big-endian bytes per 32-bit word. -/
def bytesToWords (bs : List Nat) : List Nat :=
  (chunksOf 4 bs.length bs).map beBytesToNat

def sha256SmallSigma0 (x : Nat) : Nat :=
  (rotr32 7 x) ^^^ (rotr32 18 x) ^^^ (x >>> 3)

def sha256SmallSigma1 (x : Nat) : Nat :=
  (rotr32 17 x) ^^^ (rotr32 19 x) ^^^ (x >>> 10)

def sha256BigSigma0 (x : Nat) : Nat :=
  (rotr32 2 x) ^^^ (rotr32 13 x) ^^^ (rotr32 22 x)

def sha256BigSigma1 (x : Nat) : Nat :=
  (rotr32 6 x) ^^^ (rotr32 11 x) ^^^ (rotr32 25 x)

/-- Message-schedule extension: grow `w` to 64 words. -/
def sha256Extend : Nat → List Nat → List Nat
  | 0, w => w
  | fuel + 1, w =>
    if w.length ≥ 64 then w
    else
      let t := w.length
      let nw := (sha256SmallSigma1 (w.getD (t - 2) 0) + w.getD (t - 7) 0 +
                 sha256SmallSigma0 (w.getD (t - 15) 0) + w.getD (t - 16) 0) % 2 ^ 32
      sha256Extend fuel (w ++ [nw])

/-- One SHA-256 compression round. -/
def sha256Round (kw : Nat) (st : List Nat) : List Nat :=
  let a := st.getD 0 0
  let b := st.getD 1 0
  let c := st.getD 2 0
  let d := st.getD 3 0
  let e := st.getD 4 0
  let f := st.getD 5 0
  let g := st.getD 6 0
  let h := st.getD 7 0
  let ch := (e &&& f) ^^^ ((2 ^ 32 - 1 - e) &&& g)
  let maj := (a &&& b) ^^^ (a &&& c) ^^^ (b &&& c)
  let t1 := (h + sha256BigSigma1 e + ch + kw) % 2 ^ 32
  let t2 := (sha256BigSigma0 a + maj) % 2 ^ 32
  [(t1 + t2) % 2 ^ 32, a, b, c, (d + t1) % 2 ^ 32, e, f, g]

/-- Compress one 64-byte block into the running hash state. -/
def sha256Compress (st : List Nat) (block : List Nat) : List Nat :=
  let w := sha256Extend 48 (bytesToWords block)
  let kws := sha256K.zipWith (fun k wt => (k + wt) % 2 ^ 32) w
  let fin := kws.foldl (fun s kw => sha256Round kw s) st
  st.zipWith (fun x y => (x + y) % 2 ^ 32) fin

/-- SHA-256 of a byte list, as 32 bytes. -/
def sha256 (msg : List Nat) : List Nat :=
  let padded := sha256Pad msg
  let blocks := chunksOf 64 padded.length padded
  let fin := blocks.foldl sha256Compress sha256H0
  fin.foldr (fun w acc => natToBeBytes 4 w ++ acc) []

/-! ### HKDF-style key derivation (`security/encryption.py`) -/

/-- `hkdf_extract(salt, input_key)`: `sha256(salt ‖ input_key)`. -/
def hkdf_extract (salt input_key : List Nat) : List Nat :=
  sha256 (salt ++ input_key)

/-- The `while len(okm) < length` loop of `hkdf_expand`, fuel-bounded (the
digest grows `okm` by 32 bytes per iteration, so `length + 1` fuel is ample).
Faithful to the source: only `previous`, `info` and the counter byte enter the
hash — the `prk` argument of `hkdf_expand` is never used. -/
def hkdfExpandGo (info : List Nat) : Nat → List Nat → List Nat → Nat → Nat → List Nat
  | 0, _, okm, _, _ => okm
  | fuel + 1, previous, okm, counter, len =>
    if okm.length < len then
      let d := sha256 (previous ++ info ++ [counter])
      hkdfExpandGo info fuel d (okm ++ d) (counter + 1) len
    else okm

/-- `hkdf_expand(prk, info, length)` from `security/encryption.py`.  Note that
the source's loop never touches `prk`; the argument is kept to mirror the
signature. -/
def hkdf_expand (prk : List Nat) (info : List Nat) (len : Nat) : List Nat :=
  (hkdfExpandGo info (len + 1) [] [] 1 len).take len

/-- The four 32-byte session keys (`derive_session_keys` return dictionary). -/
structure KeySet where
  encryption_key : List Nat
  mac_key : List Nat
  iv_key : List Nat
  next_key_seed : List Nat
deriving DecidableEq, Repr

/-- `derive_session_keys(shared_secret, connection_id, timestamp)`. -/
def derive_session_keys (shared_secret : List Nat) (connection_id : String)
    (timestamp : Int) : KeySet :=
  let context := strBytes (connection_id ++ ":" ++ toString timestamp)
  let salt := sha256 context
  let info := strBytes "ClawChat v2.0 Session Keys"
  let prk := hkdf_extract salt shared_secret
  let keys := hkdf_expand prk info 128
  { encryption_key := (keys.drop 0).take 32
    mac_key := (keys.drop 32).take 32
    iv_key := (keys.drop 64).take 32
    next_key_seed := (keys.drop 96).take 32 }

/-! ### Packet-mode authenticated encryption (`CryptoManager`) -/

/-- The error kinds of `security/encryption.py`: `CryptoError` ("Session keys
not set"), `DecryptionError` ("Ciphertext too short" / file-mode failures) and
`AuthenticationError` (AEAD failure in `decrypt_packet`). -/
inductive CryptoErr where
  | cryptoError : CryptoErr
  | decryptionError : CryptoErr
  | authenticationError : CryptoErr
deriving DecidableEq, Repr

/-- Header block of the symbolic AEAD ciphertext: an injective encoding of the
key, the nonce and the associated data (each length-tagged). -/
def gcmHeader (key nonce ad : List Nat) : List Nat :=
  (key.length :: key) ++ (nonce.length :: nonce) ++ (ad.length :: ad)

/-- Modelled from the spec: AES-256-GCM (`AESGCM.encrypt` of the third-party
`cryptography` library, which is not part of this repository).  The spec
treats it as an ideal AEAD ("encryption that also guarantees integrity of both
ciphertext and optional unencrypted metadata", glossary; §8 *Tamper
rejection*), so the ciphertext-with-tag is modelled symbolically as an
injective encoding of `(key, nonce, associated data, plaintext)`, with the
plaintext carried twice so that any single corrupted byte is detectable.  The
byte values and the 16-byte tag layout of real GCM are not modelled; the
`associated_data=None` default is modelled as `[]`. -/
def aesgcm_encrypt (key nonce plaintext ad : List Nat) : List Nat :=
  gcmHeader key nonce ad ++ plaintext.length :: (plaintext ++ plaintext)

/-- Modelled from the spec: AES-256-GCM decryption (`AESGCM.decrypt`), inverse
of `aesgcm_encrypt`; returns `none` (the library raises `InvalidTag`) unless
the ciphertext is exactly a well-formed encoding under this key, nonce and
associated data. -/
def aesgcm_decrypt (key nonce ct ad : List Nat) : Option (List Nat) :=
  let hdr := gcmHeader key nonce ad
  if ct.take hdr.length = hdr then
    match ct.drop hdr.length with
    | [] => none
    | n :: rest =>
      if rest.length = 2 * n ∧ rest.take n = rest.drop n then some (rest.take n)
      else none
  else none

/-- `CryptoManager.encrypt_packet`: requires installed session keys
(`self._session_keys`, modelled as `Option KeySet`), generates a fresh 12-byte
nonce (modelled as the explicit `nonce` argument) and returns
`nonce + ciphertext`. -/
def encrypt_packet (session_keys : Option KeySet) (nonce plaintext ad : List Nat) :
    Except CryptoErr (List Nat) :=
  match session_keys with
  | none => .error .cryptoError
  | some ks => .ok (nonce ++ aesgcm_encrypt ks.encryption_key nonce plaintext ad)

/-- `CryptoManager.decrypt_packet`: rejects missing keys (`CryptoError`),
inputs shorter than 28 bytes (`DecryptionError("Ciphertext too short")`), and
wraps every AEAD failure as `AuthenticationError`. -/
def decrypt_packet (session_keys : Option KeySet) (ciphertext ad : List Nat) :
    Except CryptoErr (List Nat) :=
  match session_keys with
  | none => .error .cryptoError
  | some ks =>
    if ciphertext.length < 28 then .error .decryptionError
    else
      match aesgcm_decrypt ks.encryption_key (ciphertext.take 12) (ciphertext.drop 12) ad with
      | some pt => .ok pt
      | none => .error .authenticationError

/-! ### Key rotation (`security/key_rotation.py`) -/

/-- `RotationState`.  `rotation_due = none` models `float('inf')` (set by
`destroy_keys`); all other times are finite `Int` seconds. -/
structure RotationState where
  current_keys : Option KeySet
  next_keys : Option KeySet
  rotation_due : Option Int
  grace_period_end : Int
  rotation_in_progress : Bool
deriving DecidableEq, Repr

/-- `KeyRotator` (the `_key_history` entries keep only the key sets; the
history timestamps are elided — the history is never read for decryption). -/
structure KeyRotator where
  shared_secret : List Nat
  connection_id : String
  state : RotationState
  key_history : List (Option KeySet)
deriving DecidableEq, Repr

def ROTATION_INTERVAL : Int := 3600
def GRACE_PERIOD : Int := 300
def ADVANCE_NOTICE : Int := 120

/-- `KeyRotator.__init__`: derives initial keys at `now = int(time.time())`. -/
def initKeyRotator (shared_secret : List Nat) (connection_id : String) (now : Int) :
    KeyRotator :=
  { shared_secret := shared_secret
    connection_id := connection_id
    state :=
      { current_keys := some (derive_session_keys shared_secret connection_id now)
        next_keys := none
        rotation_due := some (now + ROTATION_INTERVAL)
        grace_period_end := 0
        rotation_in_progress := false }
    key_history := [] }

/-- `KeyRotator.prepare_next_keys` at time `now`; `none` models the `TypeError`
Python would raise when `current_keys` is `None`. -/
def prepare_next_keys (kr : KeyRotator) (now : Int) : Option (KeySet × KeyRotator) :=
  match kr.state.current_keys with
  | none => none
  | some cur =>
    let new_connection_id := kr.connection_id ++ "-" ++ toString now
    let new_keys := derive_session_keys cur.next_key_seed new_connection_id now
    some (new_keys, { kr with state := { kr.state with next_keys := some new_keys } })

/-- `KeyRotator.perform_rotation` at time `now`: stages next keys if absent,
pushes the old current keys into the (≤ 5 entry) history, promotes
`next_keys`, and resets `rotation_due`/`grace_period_end`. -/
def perform_rotation (kr : KeyRotator) (now : Int) : Option KeyRotator :=
  let staged : Option KeyRotator :=
    if kr.state.next_keys.isNone then (prepare_next_keys kr now).map Prod.snd
    else some kr
  match staged with
  | none => none
  | some kr1 =>
    let hist0 := kr1.key_history ++ [kr1.state.current_keys]
    let hist := if hist0.length > 5 then hist0.tail else hist0
    some
      { kr1 with
        key_history := hist
        state :=
          { kr1.state with
            current_keys := kr1.state.next_keys
            next_keys := none
            rotation_due := some (now + ROTATION_INTERVAL)
            grace_period_end := now + GRACE_PERIOD } }

/-- `KeyRotator.destroy_keys`: clears both key references and the history and
sets `rotation_due = float('inf')`. -/
def rotator_destroy_keys (kr : KeyRotator) : KeyRotator :=
  { kr with
    key_history := []
    state :=
      { kr.state with current_keys := none, next_keys := none, rotation_due := none } }

/-! ### Compromised Protocol (`protocol/compromised.py`) -/

inductive CompromisedState where
  | NORMAL
  | SIGNAL_SENT
  | SIGNAL_RECEIVED
  | KEYS_DESTROYED
  | WAITING_FOR_NEW_KEYS
deriving DecidableEq, Repr

def SIGNAL_STRING : String := "CLAWCHAT_COMPROMISED_V2"
def ACK_STRING : String := "CLAWCHAT_COMPROMISED_ACK_V2"

/-- `CompromisedProtocolHandler` (the callback slots and `signal_sent_time`
bookkeeping are modelled at the session level / elided). -/
structure CompromisedProtocolHandler where
  is_server : Bool
  connection_id : String
  mac_key : List Nat
  state : CompromisedState
deriving DecidableEq, Repr

/-- Modelled from the spec: the keyed hash used for signal signatures
(`hashlib.blake2b(key=mac_key, digest_size=32)` — the Python standard
library, not repository code).  The spec calls it "a keyed hash" and relies
on forgeries under a wrong key being rejected, so it is modelled as an ideal
MAC: an injective encoding of the key and the message (the hex digest encoding
is elided; signatures are byte lists). -/
def macBytes (key msg : List Nat) : List Nat :=
  key.length :: (key ++ msg)

/-- `CompromisedProtocolHandler._sign_signal`. -/
def sign_signal (mac_key : List Nat) (signal_data : String) : List Nat :=
  macBytes mac_key (strBytes signal_data)

/-- `CompromisedProtocolHandler._verify_signal` (`secrets.compare_digest` is
equality). -/
def verify_signal (mac_key : List Nat) (signal_data : String) (sg : List Nat) : Bool :=
  sign_signal mac_key signal_data == sg

/-- A compromised-signal message dictionary
`{type, version, signal, timestamp, connection_id, reason, signature}`. -/
structure CompromisedMessage where
  mtype : String
  version : String
  signal : String
  timestamp : Int
  connection_id : String
  reason : String
  signature : List Nat
deriving DecidableEq, Repr

/-- `CompromisedProtocolHandler.create_compromised_signal(reason)` at time
`now`: signs `f"{SIGNAL_STRING}:{connection_id}:{timestamp}"` and moves to
`SIGNAL_SENT`. -/
def create_compromised_signal (h : CompromisedProtocolHandler) (now : Int)
    (reason : String) : CompromisedMessage × CompromisedProtocolHandler :=
  let signal_data := SIGNAL_STRING ++ ":" ++ h.connection_id ++ ":" ++ toString now
  let sg := sign_signal h.mac_key signal_data
  (⟨"compromised", "2.0", SIGNAL_STRING, now, h.connection_id, reason, sg⟩,
   { h with state := .SIGNAL_SENT })

/-- `CompromisedProtocolHandler._destroy_keys`: replaces `mac_key` with fresh
random bytes (`fresh`), moves to `KEYS_DESTROYED`, and on the server on to
`WAITING_FOR_NEW_KEYS`. -/
def handler_destroy_keys (h : CompromisedProtocolHandler) (fresh : List Nat) :
    CompromisedProtocolHandler :=
  let h1 := { h with mac_key := fresh, state := CompromisedState.KEYS_DESTROYED }
  if h1.is_server then { h1 with state := .WAITING_FOR_NEW_KEYS } else h1

/-- `CompromisedProtocolHandler.handle_compromised_signal(message)` at time
`now` (`fresh` is the randomness `_destroy_keys` would draw).  Checks, in
source order: `type`, `version`, `signal`, `connection_id`, signature over
`f"{SIGNAL_STRING}:{connection_id}:{timestamp}"`, and the 300-second replay
window; on any failure it returns `False` with the handler unchanged (the
source's `try/except` also only returns `False`). -/
def handle_compromised_signal (h : CompromisedProtocolHandler) (now : Int)
    (fresh : List Nat) (m : CompromisedMessage) :
    Bool × CompromisedProtocolHandler :=
  if m.mtype ≠ "compromised" then (false, h)
  else if m.version ≠ "2.0" then (false, h)
  else if m.signal ≠ SIGNAL_STRING then (false, h)
  else if m.connection_id ≠ h.connection_id then (false, h)
  else
    let signal_data := SIGNAL_STRING ++ ":" ++ h.connection_id ++ ":" ++ toString m.timestamp
    if ¬ verify_signal h.mac_key signal_data m.signature then (false, h)
    else if (now - m.timestamp).natAbs > 300 then (false, h)
    else (true, handler_destroy_keys { h with state := .SIGNAL_RECEIVED } fresh)

/-- A server session as wired in `server/main.py`: the `CryptoManager`'s
installed keys, the rotator, the compromised handler and the run flag.  Its
`_on_keys_destroyed` callback only sets `running = False`. -/
structure ServerSession where
  running : Bool
  session_keys : Option KeySet
  rotator : KeyRotator
  handler : CompromisedProtocolHandler
deriving DecidableEq, Repr

/-- `server/main.py _handle_compromised` + `_on_keys_destroyed`: feed the
signal to the handler; on acceptance the `on_keys_destroyed` callback sets
`running = False`.  Nothing touches `session_keys` or the rotator. -/
def session_handle_compromised (s : ServerSession) (now : Int) (fresh : List Nat)
    (m : CompromisedMessage) : Bool × ServerSession :=
  let r := handle_compromised_signal s.handler now fresh m
  if r.1 then (true, { s with handler := r.2, running := false })
  else (false, { s with handler := r.2 })

/-! ### Hole-punch packets (`networking/udp_hole_punch.py`) -/

def PKT_PUNCH : Nat := 1
def PKT_PUNCH_ACK : Nat := 2

/-- `UDPHolePuncher._create_punch_packet(packet_type)`: draws 16 random bytes
(`rand16`), encrypts the 1-byte payload with `encrypt_packet` (which itself
prepends its own fresh 12-byte `nonce`), and returns `rand16 + encrypted`. -/
def create_punch_packet (session_keys : Option KeySet) (rand16 nonce : List Nat)
    (packet_type : Nat) : Except CryptoErr (List Nat) :=
  match encrypt_packet session_keys nonce [packet_type] [] with
  | .error e => .error e
  | .ok enc => .ok (rand16 ++ enc)

/-- `UDPHolePuncher._parse_packet(data)`: length check, strip the 16 leading
bytes, decrypt, and return the first plaintext byte; every failure is `None`. -/
def parse_packet (session_keys : Option KeySet) (data : List Nat) : Option Nat :=
  if data.length < 17 then none
  else
    match decrypt_packet session_keys (data.drop 16) [] with
    | .error _ => none
    | .ok pt =>
      match pt with
      | [] => none
      | b :: _ => some b

/-! ### Message framing (`protocol/messages.py`) -/

/-- Modelled from the spec: the payload is "UTF-8 structured bytes" parsed by
the standard library's `json.loads` (not repository code).  `Json` carries
number lexemes and string contents as raw bytes (numeric IEEE-754 decoding and
escape resolution are elided; Python's nonstandard `NaN`/`Infinity` literals
are not modelled — immaterial to the framing claims). -/
inductive Json where
  | jnull : Json
  | jbool : Bool → Json
  | jnum : List Nat → Json
  | jstr : List Nat → Json
  | jarr : List Json → Json
  | jobj : List (List Nat × Json) → Json

def jsonWs (c : Nat) : Bool :=
  c == 32 || c == 9 || c == 10 || c == 13

def skipWs (s : List Nat) : List Nat :=
  s.dropWhile jsonWs

def isDigitByte (c : Nat) : Bool :=
  48 ≤ c && c ≤ 57

def isHexDigitByte (c : Nat) : Bool :=
  isDigitByte c || (65 ≤ c && c ≤ 70) || (97 ≤ c && c ≤ 102)

/-- JSON string body (after the opening quote): content bytes kept raw
(escapes included), returning the remainder after the closing quote. -/
def parseJsonString : Nat → List Nat → Option (List Nat × List Nat)
  | 0, _ => none
  | fuel + 1, s =>
    match s with
    | [] => none
    | 34 :: rest => some ([], rest)
    | 92 :: 117 :: h1 :: h2 :: h3 :: h4 :: r2 =>
      if isHexDigitByte h1 && isHexDigitByte h2 && isHexDigitByte h3 && isHexDigitByte h4 then
        (parseJsonString fuel r2).map fun p => (92 :: 117 :: h1 :: h2 :: h3 :: h4 :: p.1, p.2)
      else none
    | 92 :: c :: r2 =>
      if c = 34 ∨ c = 92 ∨ c = 47 ∨ c = 98 ∨ c = 102 ∨ c = 110 ∨ c = 114 ∨ c = 116 then
        (parseJsonString fuel r2).map fun p => (92 :: c :: p.1, p.2)
      else none
    | c :: rest =>
      if 32 ≤ c then (parseJsonString fuel rest).map fun p => (c :: p.1, p.2)
      else none

def parseJsonFrac (s : List Nat) : Option (List Nat × List Nat) :=
  match s with
  | 46 :: r =>
    let fd := r.takeWhile isDigitByte
    if fd = [] then none else some (46 :: fd, r.drop fd.length)
  | _ => some ([], s)

def parseJsonExp (s : List Nat) : Option (List Nat × List Nat) :=
  match s with
  | c :: r =>
    if c = 101 ∨ c = 69 then
      let sg : List Nat × List Nat :=
        match r with
        | 43 :: r2 => ([43], r2)
        | 45 :: r2 => ([45], r2)
        | _ => ([], r)
      let ed := sg.2.takeWhile isDigitByte
      if ed = [] then none else some (c :: sg.1 ++ ed, sg.2.drop ed.length)
    else some ([], s)
  | [] => some ([], [])

/-- JSON number lexeme: `-?(0|[1-9][0-9]*)(\.[0-9]+)?([eE][+-]?[0-9]+)?`. -/
def parseJsonNumber (s : List Nat) : Option (List Nat × List Nat) :=
  let sgn : List Nat × List Nat :=
    match s with
    | 45 :: r => ([45], r)
    | _ => ([], s)
  let ds := sgn.2.takeWhile isDigitByte
  if ds = [] then none
  else if ds.length > 1 ∧ ds.headD 0 = 48 then none
  else
    match parseJsonFrac (sgn.2.drop ds.length) with
    | none => none
    | some (fr, s3) =>
      match parseJsonExp s3 with
      | none => none
      | some (ex, s4) => some (sgn.1 ++ ds ++ fr ++ ex, s4)

mutual

/-- JSON value (fuel-bounded recursive-descent, the grammar of `json.loads`). -/
def parseJsonValue : Nat → List Nat → Option (Json × List Nat)
  | 0, _ => none
  | fuel + 1, input =>
    match skipWs input with
    | [] => none
    | c :: rest =>
      if c = 110 then
        match rest with
        | 117 :: 108 :: 108 :: r => some (.jnull, r)
        | _ => none
      else if c = 116 then
        match rest with
        | 114 :: 117 :: 101 :: r => some (.jbool true, r)
        | _ => none
      else if c = 102 then
        match rest with
        | 97 :: 108 :: 115 :: 101 :: r => some (.jbool false, r)
        | _ => none
      else if c = 34 then
        match parseJsonString fuel rest with
        | some (content, r) => some (.jstr content, r)
        | none => none
      else if c = 91 then
        match skipWs rest with
        | 93 :: r => some (.jarr [], r)
        | _ =>
          match parseJsonItems fuel rest with
          | some (items, r) => some (.jarr items, r)
          | none => none
      else if c = 123 then
        match skipWs rest with
        | 125 :: r => some (.jobj [], r)
        | _ =>
          match parseJsonMembers fuel rest with
          | some (ms, r) => some (.jobj ms, r)
          | none => none
      else if c = 45 ∨ isDigitByte c then
        match parseJsonNumber (c :: rest) with
        | some (lex, r) => some (.jnum lex, r)
        | none => none
      else none

/-- Comma-separated array items up to `]`. -/
def parseJsonItems : Nat → List Nat → Option (List Json × List Nat)
  | 0, _ => none
  | fuel + 1, input =>
    match parseJsonValue fuel input with
    | none => none
    | some (v, r) =>
      match skipWs r with
      | 44 :: r2 =>
        match parseJsonItems fuel r2 with
        | some (vs, r3) => some (v :: vs, r3)
        | none => none
      | 93 :: r2 => some ([v], r2)
      | _ => none

/-- Comma-separated `"key": value` members up to the closing brace. -/
def parseJsonMembers : Nat → List Nat → Option (List (List Nat × Json) × List Nat)
  | 0, _ => none
  | fuel + 1, input =>
    match skipWs input with
    | 34 :: r =>
      match parseJsonString fuel r with
      | none => none
      | some (key, r1) =>
        match skipWs r1 with
        | 58 :: r2 =>
          match parseJsonValue fuel r2 with
          | none => none
          | some (v, r3) =>
            match skipWs r3 with
            | 44 :: r4 =>
              match parseJsonMembers fuel r4 with
              | some (ms, r5) => some ((key, v) :: ms, r5)
              | none => none
            | 125 :: r4 => some ([(key, v)], r4)
            | _ => none
        | _ => none
    | _ => none

end

/-- `json.loads(data)`: one value, then only trailing whitespace. -/
def jsonLoads (data : List Nat) : Option Json :=
  match parseJsonValue (data.length + 2) data with
  | some (v, rest) => if skipWs rest = [] then some v else none
  | none => none

/-- A parsed `Message`.  The 8 timestamp bytes are carried raw (IEEE-754
double decoding is not modelled) and the id is carried as bytes (its UTF-8
`decode` is not modelled); neither matters for the framing claims. -/
structure Msg where
  msg_type : Nat
  payload : Json
  timestamp_bytes : List Nat
  message_id : List Nat

/-- The `MessageType` enumeration values. -/
def isValidMessageType (n : Nat) : Bool :=
  [1, 2, 3, 16, 17, 18, 19, 32, 33, 34, 48, 49].contains n

/-- `Message.from_bytes(data)`.  Python slicing truncates silently: the id and
payload slices may be shorter than their declared lengths; exceptions
(`struct.error`, `json.JSONDecodeError`, `ValueError` from `MessageType`) are
the `.error` results. -/
def from_bytes (data : List Nat) : Except String Msg :=
  if data.length < 10 then .error "struct.error"
  else
    let msg_type := data.getD 0 0
    let ts := (data.drop 1).take 8
    let id_len := data.getD 9 0
    let msg_id := (data.drop 10).take id_len
    let plBytes := (data.drop (10 + id_len)).take 4
    if plBytes.length < 4 then .error "struct.error"
    else
      let payload_len := beBytesToNat plBytes
      let payload_bytes := (data.drop (14 + id_len)).take payload_len
      match jsonLoads payload_bytes with
      | none => .error "json.JSONDecodeError"
      | some payload =>
        if isValidMessageType msg_type then .ok ⟨msg_type, payload, ts, msg_id⟩
        else .error "ValueError"

/-- `MessageHandler.parse_message(data)`: `from_bytes` with every exception
caught, returning `None`. -/
def parse_message (data : List Nat) : Option Msg :=
  (from_bytes data).toOption

/-! ### Concrete instances used by witnesses and counterexamples -/

def c5KR : KeyRotator := initKeyRotator [1] "c" 0

def c5KR1 : KeyRotator := (perform_rotation c5KR 1000).getD c5KR

def c6Handler : CompromisedProtocolHandler := ⟨false, "c", [5, 5], .NORMAL⟩

def c6Msg : CompromisedMessage := (create_compromised_signal c6Handler 5 "suspected_breach").1

def c7Handler : CompromisedProtocolHandler := ⟨true, "conn", [1, 2, 3], .NORMAL⟩

def c8Handler : CompromisedProtocolHandler := ⟨true, "srv", [7, 7], .NORMAL⟩

def c8Session : ServerSession :=
  ⟨true, some ⟨[1], [2], [3], [4]⟩, initKeyRotator [9] "srv" 0, c8Handler⟩

def c8Msg : CompromisedMessage := (create_compromised_signal c8Handler 5 "breach").1

def c8After : ServerSession := (session_handle_compromised c8Session 10 [6] c8Msg).2

def c9Frame : List Nat := [16, 0, 0, 0, 0, 0, 0, 0, 0, 0, 0, 0, 0, 10, 49]

/-! ### Helper lemmas -/

theorem list_set_ne_of_getElem? {l : List Nat} {i v b : Nat}
    (hv : l[i]? = some v) (hb : b ≠ v) : l.set i b ≠ l := by
  intro he
  have hlt : i < l.length := (List.getElem?_eq_some.mp hv).1
  have h2 : (l.set i b)[i]? = some b := List.getElem?_set_eq_of_lt b hlt
  rw [he, hv] at h2
  exact hb (Option.some.inj h2).symm

theorem gcmHeader_length (key nonce ad : List Nat) :
    (gcmHeader key nonce ad).length = key.length + nonce.length + ad.length + 3 := by
  simp [gcmHeader]
  omega

theorem gcmHeader_nonce_inj {key nonce nonce' ad : List Nat}
    (h : gcmHeader key nonce ad = gcmHeader key nonce' ad) : nonce = nonce' := by
  unfold gcmHeader at h
  have h1 := List.append_cancel_right h
  have h2 := List.append_cancel_left h1
  exact (List.cons.injEq _ _ _ _ ▸ h2).2

theorem aesgcm_encrypt_length (key nonce pt ad : List Nat) :
    (aesgcm_encrypt key nonce pt ad).length
      = key.length + nonce.length + ad.length + 4 + 2 * pt.length := by
  simp [aesgcm_encrypt, gcmHeader]
  omega

theorem aesgcm_roundtrip (key nonce pt ad : List Nat) :
    aesgcm_decrypt key nonce (aesgcm_encrypt key nonce pt ad) ad = some pt := by
  have hlen : (pt ++ pt).length = 2 * pt.length := by simp [two_mul]
  have htake : (pt ++ pt).take pt.length = pt := List.take_left' rfl
  have hdrop : (pt ++ pt).drop pt.length = pt := List.drop_left' rfl
  simp only [aesgcm_decrypt, aesgcm_encrypt, List.take_left, List.drop_left]
  simp [hlen, htake, hdrop]

theorem aesgcm_tamper (key nonce pt ad : List Nat) (i v b : Nat)
    (hv : (aesgcm_encrypt key nonce pt ad)[i]? = some v) (hb : b ≠ v) :
    aesgcm_decrypt key nonce ((aesgcm_encrypt key nonce pt ad).set i b) ad = none := by
  rcases Nat.lt_or_ge i (gcmHeader key nonce ad).length with hi | hi
  · have hset : (aesgcm_encrypt key nonce pt ad).set i b
        = (gcmHeader key nonce ad).set i b ++ pt.length :: (pt ++ pt) := by
      unfold aesgcm_encrypt
      rw [List.set_append, if_pos hi]
    have hv' : (gcmHeader key nonce ad)[i]? = some v := by
      have h0 := hv
      unfold aesgcm_encrypt at h0
      rwa [List.getElem?_append_left hi] at h0
    have hne : (gcmHeader key nonce ad).set i b ≠ gcmHeader key nonce ad :=
      list_set_ne_of_getElem? hv' hb
    have hcond : List.take (gcmHeader key nonce ad).length
        ((gcmHeader key nonce ad).set i b ++ pt.length :: (pt ++ pt))
        = (gcmHeader key nonce ad).set i b := List.take_left' (List.length_set _ _ _)
    simp only [aesgcm_decrypt, hset, hcond]
    rw [if_neg hne]
  · obtain ⟨j, hj⟩ : ∃ j, i = (gcmHeader key nonce ad).length + j :=
      ⟨i - (gcmHeader key nonce ad).length, by omega⟩
    have hset : (aesgcm_encrypt key nonce pt ad).set i b
        = gcmHeader key nonce ad ++ (pt.length :: (pt ++ pt)).set j b := by
      unfold aesgcm_encrypt
      rw [List.set_append, if_neg (by omega)]
      have : i - (gcmHeader key nonce ad).length = j := by omega
      rw [this]
    have hv' : (pt.length :: (pt ++ pt))[j]? = some v := by
      have h0 := hv
      unfold aesgcm_encrypt at h0
      rw [List.getElem?_append_right hi] at h0
      have : i - (gcmHeader key nonce ad).length = j := by omega
      rwa [this] at h0
    rcases j with _ | j'
    · have hvv : pt.length = v := by
        simpa using hv'
      rw [hset, List.set_cons_zero]
      simp only [aesgcm_decrypt, List.take_left, List.drop_left, if_pos]
      rw [if_neg]
      intro hc
      have h1 : (pt ++ pt).length = 2 * b := hc.1
      simp [two_mul] at h1
      exact hb (by omega)
    · have hv2 : (pt ++ pt)[j']? = some v := by
        simpa using hv'
      rw [hset, List.set_cons_succ]
      simp only [aesgcm_decrypt, List.take_left, List.drop_left, if_pos]
      have hlen2 : ((pt ++ pt).set j' b).length = 2 * pt.length := by
        simp [two_mul]
      rw [if_neg]
      intro hc
      rcases Nat.lt_or_ge j' pt.length with hj' | hj'
      · have hsplit : (pt ++ pt).set j' b = pt.set j' b ++ pt := by
          rw [List.set_append, if_pos hj']
        have hvp : pt[j']? = some v := by
          have h0 := hv2
          rwa [List.getElem?_append_left hj'] at h0
        have htk : List.take pt.length ((pt ++ pt).set j' b) = pt.set j' b := by
          rw [hsplit]
          exact List.take_left' (List.length_set _ _ _)
        have hdp : List.drop pt.length ((pt ++ pt).set j' b) = pt := by
          rw [hsplit]
          exact List.drop_left' (List.length_set _ _ _)
        have := hc.2
        rw [htk, hdp] at this
        exact list_set_ne_of_getElem? hvp hb this
      · have hsplit : (pt ++ pt).set j' b = pt ++ pt.set (j' - pt.length) b := by
          rw [List.set_append, if_neg (by omega)]
        have hvp : pt[j' - pt.length]? = some v := by
          have h0 := hv2
          rwa [List.getElem?_append_right hj'] at h0
        have htk : List.take pt.length ((pt ++ pt).set j' b) = pt := by
          rw [hsplit]
          exact List.take_left _ _
        have hdp : List.drop pt.length ((pt ++ pt).set j' b) = pt.set (j' - pt.length) b := by
          rw [hsplit]
          exact List.drop_left _ _
        have := hc.2
        rw [htk, hdp] at this
        exact list_set_ne_of_getElem? hvp hb this.symm

theorem aesgcm_wrong_nonce (key nonce nonce' pt ad : List Nat)
    (hlen : nonce'.length = nonce.length) (hne : nonce' ≠ nonce) :
    aesgcm_decrypt key nonce' (aesgcm_encrypt key nonce pt ad) ad = none := by
  have hL : (gcmHeader key nonce ad).length = (gcmHeader key nonce' ad).length := by
    rw [gcmHeader_length, gcmHeader_length, hlen]
  have htk : List.take (gcmHeader key nonce' ad).length
      (gcmHeader key nonce ad ++ pt.length :: (pt ++ pt)) = gcmHeader key nonce ad :=
    List.take_left' hL
  simp only [aesgcm_decrypt, aesgcm_encrypt, htk]
  rw [if_neg]
  intro hc
  exact hne (gcmHeader_nonce_inj hc).symm

theorem decrypt_encrypt_roundtrip (ks : KeySet) (nonce pt ad : List Nat)
    (hn : nonce.length = 12) :
    decrypt_packet (some ks) (nonce ++ aesgcm_encrypt ks.encryption_key nonce pt ad) ad
      = .ok pt := by
  have hlen : ¬ (nonce ++ aesgcm_encrypt ks.encryption_key nonce pt ad).length < 28 := by
    simp [aesgcm_encrypt_length, hn]
    omega
  simp only [decrypt_packet]
  rw [if_neg hlen, List.take_left' hn, List.drop_left' hn, aesgcm_roundtrip]

theorem decrypt_packet_tamper (ks : KeySet) (nonce pt ad : List Nat) (i v b : Nat)
    (hn : nonce.length = 12)
    (hv : (nonce ++ aesgcm_encrypt ks.encryption_key nonce pt ad)[i]? = some v)
    (hb : b ≠ v) :
    decrypt_packet (some ks)
      ((nonce ++ aesgcm_encrypt ks.encryption_key nonce pt ad).set i b) ad
      = .error .authenticationError := by
  have hlen : ¬ ((nonce ++ aesgcm_encrypt ks.encryption_key nonce pt ad).set i b).length < 28 := by
    rw [List.length_set]
    simp [aesgcm_encrypt_length, hn]
    omega
  rcases Nat.lt_or_ge i 12 with hi | hi
  · have hi' : i < nonce.length := by omega
    have hv' : nonce[i]? = some v := by
      rwa [List.getElem?_append_left hi'] at hv
    have hset : (nonce ++ aesgcm_encrypt ks.encryption_key nonce pt ad).set i b
        = nonce.set i b ++ aesgcm_encrypt ks.encryption_key nonce pt ad := by
      rw [List.set_append, if_pos hi']
    have htk : List.take 12 (nonce.set i b ++ aesgcm_encrypt ks.encryption_key nonce pt ad)
        = nonce.set i b := List.take_left' (by rw [List.length_set, hn])
    have hdp : List.drop 12 (nonce.set i b ++ aesgcm_encrypt ks.encryption_key nonce pt ad)
        = aesgcm_encrypt ks.encryption_key nonce pt ad :=
      List.drop_left' (by rw [List.length_set, hn])
    have hwn : aesgcm_decrypt ks.encryption_key (nonce.set i b)
        (aesgcm_encrypt ks.encryption_key nonce pt ad) ad = none :=
      aesgcm_wrong_nonce _ _ _ _ _ (List.length_set _ _ _)
        (list_set_ne_of_getElem? hv' hb)
    simp only [decrypt_packet, hset]
    rw [if_neg (hset ▸ hlen), htk, hdp, hwn]
  · have hi' : nonce.length ≤ i := by omega
    have hv' : (aesgcm_encrypt ks.encryption_key nonce pt ad)[i - 12]? = some v := by
      rw [List.getElem?_append_right hi'] at hv
      rwa [hn] at hv
    have hset : (nonce ++ aesgcm_encrypt ks.encryption_key nonce pt ad).set i b
        = nonce ++ (aesgcm_encrypt ks.encryption_key nonce pt ad).set (i - 12) b := by
      rw [List.set_append, if_neg (by omega), hn]
    simp only [decrypt_packet, hset]
    rw [if_neg (hset ▸ hlen), List.take_left' hn, List.drop_left' hn,
      aesgcm_tamper _ _ _ _ _ _ _ hv' hb]

theorem decrypt_packet_kinds (ks : KeySet) (ct ad : List Nat) (h : ¬ ct.length < 28) :
    decrypt_packet (some ks) ct ad = .error .authenticationError ∨
      ∃ pt, decrypt_packet (some ks) ct ad = .ok pt := by
  simp only [decrypt_packet]
  rw [if_neg h]
  cases aesgcm_decrypt ks.encryption_key (ct.take 12) (ct.drop 12) ad with
  | none => exact Or.inl rfl
  | some pt => exact Or.inr ⟨pt, rfl⟩

theorem hkdf_expand_ignores_prk (p q info : List Nat) (n : Nat) :
    hkdf_expand p info n = hkdf_expand q info n := by
  simp only [hkdf_expand]

theorem derive_session_keys_const (s₁ s₂ : List Nat) (c₁ c₂ : String) (t₁ t₂ : Int) :
    derive_session_keys s₁ c₁ t₁ = derive_session_keys s₂ c₂ t₂ := by
  simp only [derive_session_keys, hkdf_expand]

theorem xor_shift_ne (v k : Nat) : v ^^^ (1 <<< k) ≠ v := by
  intro he
  have h2 : v ^^^ (v ^^^ (1 <<< k)) = v ^^^ v := congrArg (fun x => v ^^^ x) he
  rw [← Nat.xor_assoc, Nat.xor_self, Nat.zero_xor] at h2
  have h3 : 1 <<< k = 2 ^ k := Nat.one_shiftLeft k
  have h4 : 0 < 2 ^ k := Nat.pos_pow_of_pos k (by omega)
  omega

/-- C1: `derive_session_keys` is claimed to be HKDF extract-then-expand with
the 128 expanded bytes a function of the extracted key.  The code contradicts
this (and `hkdf_expand`'s own docstring "Expand phase of HKDF"): the expand
loop never reads `prk`, so two distinct extracted keys — here the all-0 and
all-1 32-byte keys — yield byte-identical 128-byte expansions. -/

theorem claim_C1_expand_not_keyed_on_extracted_key :
    (List.replicate 32 0 ≠ List.replicate 32 1) ∧
      hkdf_expand (List.replicate 32 0) (strBytes "ClawChat v2.0 Session Keys") 128 =
        hkdf_expand (List.replicate 32 1) (strBytes "ClawChat v2.0 Session Keys") 128 :=
  ⟨by decide, hkdf_expand_ignores_prk _ _ _ _⟩

/-- C2: `derive_session_keys` returns byte-for-byte identical key sets for any
two input triples — its output is a fixed constant, because `hkdf_expand`
never incorporates its `prk` argument. -/

theorem claim_C2_derive_session_keys_constant (s₁ s₂ : List Nat) (c₁ c₂ : String)
    (t₁ t₂ : Int) :
    derive_session_keys s₁ c₁ t₁ = derive_session_keys s₂ c₂ t₂ :=
  derive_session_keys_const s₁ s₂ c₁ c₂ t₁ t₂

/-- C3: round-trip — for every plaintext, optional associated data and
installed key set, `decrypt_packet` inverts `encrypt_packet` (the fresh nonce
`encrypt_packet` draws is modelled as the 12-byte `nonce` argument). -/

theorem claim_C3_packet_roundtrip (ks : KeySet) (nonce pt ad packet : List Nat)
    (hn : nonce.length = 12)
    (he : encrypt_packet (some ks) nonce pt ad = .ok packet) :
    decrypt_packet (some ks) packet ad = .ok pt := by
  have hp : packet = nonce ++ aesgcm_encrypt ks.encryption_key nonce pt ad := by
    simpa [encrypt_packet] using he.symm
  rw [hp]
  exact decrypt_encrypt_roundtrip ks nonce pt ad hn

theorem claim_C3_witness :
    (List.replicate 12 0 : List Nat).length = 12 ∧
      encrypt_packet (some ⟨[1, 2], [3], [4], [5]⟩) (List.replicate 12 0) [7, 8] [9] =
        .ok (List.replicate 12 0 ++ aesgcm_encrypt [1, 2] (List.replicate 12 0) [7, 8] [9]) ∧
      decrypt_packet (some ⟨[1, 2], [3], [4], [5]⟩)
        (List.replicate 12 0 ++ aesgcm_encrypt [1, 2] (List.replicate 12 0) [7, 8] [9]) [9] =
        .ok [7, 8] :=
  ⟨by decide, rfl,
    claim_C3_packet_roundtrip ⟨[1, 2], [3], [4], [5]⟩ (List.replicate 12 0) [7, 8] [9] _
      (by decide) rfl⟩

/-- C4 counterexample: not every decryption failure is the authentication
error kind — a 3-byte input fails the `len < 28` check and raises
`DecryptionError("Ciphertext too short")`, a kind distinguishable from
`AuthenticationError`. -/

theorem claim_C4_counterexample :
    decrypt_packet (some ⟨[1], [2], [3], [4]⟩) [0, 0, 0] [] = .error .decryptionError ∧
      CryptoErr.decryptionError ≠ CryptoErr.authenticationError :=
  ⟨rfl, by decide⟩

/-- C4 (amended): flipping any single bit of the nonce, ciphertext or tag of a
packet produced by `encrypt_packet` makes `decrypt_packet` fail with the
authentication-failure kind (never return a plaintext), and every failure of
the AEAD path — any input of at least 28 bytes that does not decrypt — is that
single kind; but inputs shorter than 28 bytes fail with the distinct
`DecryptionError` kind (see the counterexample), so not *all* decryption
failures share one kind. -/

theorem claim_C4_bit_flip_rejected (ks : KeySet) (nonce pt ad : List Nat) (i v k : Nat)
    (hn : nonce.length = 12)
    (hv : (nonce ++ aesgcm_encrypt ks.encryption_key nonce pt ad)[i]? = some v)
    (hk : k < 8) :
    decrypt_packet (some ks)
        ((nonce ++ aesgcm_encrypt ks.encryption_key nonce pt ad).set i (v ^^^ (1 <<< k))) ad
        = .error .authenticationError ∧
      (∀ ct : List Nat, ¬ ct.length < 28 →
        decrypt_packet (some ks) ct ad = .error .authenticationError ∨
          ∃ pt', decrypt_packet (some ks) ct ad = .ok pt') :=
  ⟨decrypt_packet_tamper ks nonce pt ad i v _ hn hv (xor_shift_ne v k),
   fun ct hct => decrypt_packet_kinds ks ct ad hct⟩

theorem claim_C4_witness :
    (List.replicate 12 0 : List Nat).length = 12 ∧
      ((List.replicate 12 0 ++ aesgcm_encrypt [1] (List.replicate 12 0) [7] [])[0]? = some 0) ∧
      (0 : Nat) < 8 ∧
      decrypt_packet (some ⟨[1], [2], [3], [4]⟩)
        ((List.replicate 12 0 ++ aesgcm_encrypt [1] (List.replicate 12 0) [7] []).set 0
          (0 ^^^ (1 <<< 0))) [] = .error .authenticationError :=
  ⟨by decide, by decide, by decide,
    (claim_C4_bit_flip_rejected ⟨[1], [2], [3], [4]⟩ (List.replicate 12 0) [7] [] 0 0 0
      (by decide) (by decide) (by decide)).1⟩

/-- C5: the claim says a packet encrypted under the pre-rotation keys decrypts
during the grace window but fails after `grace_period_end`.  In the code,
`decrypt_packet` only ever uses the installed current keys and never consults
`grace_period_end` or the key history; moreover `derive_session_keys` ignores
its inputs, so the rotated key set equals the old one.  Hence a pre-rotation
packet still decrypts successfully at any time `tdec` strictly after
`grace_period_end` — contradicting the claim. -/

theorem claim_C5_old_packet_decrypts_after_grace (secret : List Nat) (cid : String)
    (t0 tr tdec : Int) (nonce pt ad : List Nat) (kr1 : KeyRotator)
    (hn : nonce.length = 12)
    (hrot : perform_rotation (initKeyRotator secret cid t0) tr = some kr1)
    (htime : tdec > kr1.state.grace_period_end) :
    decrypt_packet kr1.state.current_keys
      (nonce ++ aesgcm_encrypt (derive_session_keys secret cid t0).encryption_key nonce pt ad)
      ad = .ok pt := by
  have hcur : kr1.state.current_keys
      = some (derive_session_keys
          (derive_session_keys secret cid t0).next_key_seed
          (cid ++ "-" ++ toString tr) tr) := by
    have h0 := hrot
    simp only [perform_rotation, initKeyRotator, prepare_next_keys, Option.isNone, if_true,
      Option.map_some', Option.some.injEq] at h0
    subst h0
    rfl
  rw [hcur,
    derive_session_keys_const (derive_session_keys secret cid t0).next_key_seed secret
      (cid ++ "-" ++ toString tr) cid tr t0]
  exact decrypt_encrypt_roundtrip _ _ _ _ hn

theorem claim_C5_witness :
    (List.replicate 12 0 : List Nat).length = 12 ∧
      perform_rotation (initKeyRotator [1] "c" 0) 1000 = some c5KR1 ∧
      (1400 : Int) > c5KR1.state.grace_period_end ∧
      decrypt_packet c5KR1.state.current_keys
        (List.replicate 12 0 ++
          aesgcm_encrypt (derive_session_keys [1] "c" 0).encryption_key
            (List.replicate 12 0) [7] []) [] = .ok [7] :=
  ⟨by decide, rfl, by decide,
    claim_C5_old_packet_decrypts_after_grace [1] "c" 0 1000 1400 (List.replicate 12 0)
      [7] [] c5KR1 (by decide) rfl (by decide)⟩

theorem sign_signal_key_inj {k k' : List Nat} {d : String}
    (h : sign_signal k d = sign_signal k' d) : k = k' := by
  unfold sign_signal macBytes at h
  have hlen : k.length = k'.length := (List.cons.injEq _ _ _ _ ▸ h).1
  have happ : k ++ strBytes d = k' ++ strBytes d := (List.cons.injEq _ _ _ _ ▸ h).2
  exact List.append_inj_left happ hlen

theorem handler_destroy_keys_mac (h : CompromisedProtocolHandler) (fresh : List Nat) :
    (handler_destroy_keys h fresh).mac_key = fresh := by
  simp [handler_destroy_keys, apply_ite]

theorem handle_signal_cases (h : CompromisedProtocolHandler) (now : Int)
    (fresh : List Nat) (m : CompromisedMessage) :
    handle_compromised_signal h now fresh m = (false, h) ∨
      handle_compromised_signal h now fresh m
        = (true, handler_destroy_keys { h with state := .SIGNAL_RECEIVED } fresh) := by
  simp only [handle_compromised_signal]
  split_ifs <;> first | exact Or.inl rfl | exact Or.inr rfl

theorem handle_signal_accept_mac_key (h : CompromisedProtocolHandler) (now : Int)
    (fresh : List Nat) (m : CompromisedMessage)
    (hacc : (handle_compromised_signal h now fresh m).1 = true) :
    (handle_compromised_signal h now fresh m).2.mac_key = fresh := by
  rcases handle_signal_cases h now fresh m with hc | hc
  · rw [hc] at hacc
    simp at hacc
  · rw [hc]
    exact handler_destroy_keys_mac _ _

theorem handle_signal_true_iff (h : CompromisedProtocolHandler) (now : Int)
    (fresh : List Nat) (m : CompromisedMessage) :
    (handle_compromised_signal h now fresh m).1 = true ↔
      (m.mtype = "compromised" ∧ m.version = "2.0" ∧ m.signal = SIGNAL_STRING ∧
        m.connection_id = h.connection_id ∧
        verify_signal h.mac_key
          (SIGNAL_STRING ++ ":" ++ h.connection_id ++ ":" ++ toString m.timestamp)
          m.signature = true ∧
        (now - m.timestamp).natAbs ≤ 300) := by
  simp only [handle_compromised_signal]
  split_ifs with hc1 hc2 hc3 hc4 hc5 hc6 <;> simp_all

/-- C6: `handle_compromised_signal` accepts exactly when the signal tag (the
`type` and `signal` fields), protocol version, and `connection_id` match, the
signature verifies under the handler's current `mac_key`, and
`|now − timestamp| ≤ 300` (the replay window); any failed check silently
returns `False` with the handler unchanged (no keys destroyed, no exception —
the function is total); acceptance destroys the keys (the handler's `mac_key`
is overwritten with the fresh random bytes); a replayed signal with a stale
timestamp is rejected; and a signal signed under a wrong `mac_key` is rejected
regardless of its timestamp. -/

theorem claim_C6_signal_validation (h : CompromisedProtocolHandler) (now : Int)
    (fresh : List Nat) (m : CompromisedMessage) :
    ((handle_compromised_signal h now fresh m).1 = true ↔
      (m.mtype = "compromised" ∧ m.version = "2.0" ∧ m.signal = SIGNAL_STRING ∧
        m.connection_id = h.connection_id ∧
        verify_signal h.mac_key
          (SIGNAL_STRING ++ ":" ++ h.connection_id ++ ":" ++ toString m.timestamp)
          m.signature = true ∧
        (now - m.timestamp).natAbs ≤ 300)) ∧
    ((handle_compromised_signal h now fresh m).1 = false →
      (handle_compromised_signal h now fresh m).2 = h) ∧
    ((handle_compromised_signal h now fresh m).1 = true →
      (handle_compromised_signal h now fresh m).2.mac_key = fresh) ∧
    ((now - m.timestamp).natAbs > 300 →
      (handle_compromised_signal h now fresh m).1 = false) ∧
    (∀ k : List Nat, k ≠ h.mac_key →
      m.signature = sign_signal k
        (SIGNAL_STRING ++ ":" ++ h.connection_id ++ ":" ++ toString m.timestamp) →
      (handle_compromised_signal h now fresh m).1 = false) := by
  refine ⟨handle_signal_true_iff h now fresh m, ?_, ?_, ?_, ?_⟩
  · intro hfalse
    rcases handle_signal_cases h now fresh m with hc | hc
    · rw [hc]
    · rw [hc] at hfalse
      simp at hfalse
  · intro htrue
    rcases handle_signal_cases h now fresh m with hc | hc
    · rw [hc] at htrue
      simp at htrue
    · rw [hc]
      exact handler_destroy_keys_mac _ _
  · intro hstale
    by_cases hb : (handle_compromised_signal h now fresh m).1 = true
    · exfalso
      have hconds := (handle_signal_true_iff h now fresh m).mp hb
      omega
    · simpa using hb
  · intro k hk hsig
    by_cases hb : (handle_compromised_signal h now fresh m).1 = true
    · exfalso
      have hconds := (handle_signal_true_iff h now fresh m).mp hb
      have hver := hconds.2.2.2.2.1
      unfold verify_signal at hver
      have heq : sign_signal h.mac_key
          (SIGNAL_STRING ++ ":" ++ h.connection_id ++ ":" ++ toString m.timestamp)
          = m.signature := by
        simpa using hver
      exact hk (sign_signal_key_inj (heq.trans hsig)).symm
    · simpa using hb

theorem claim_C6_witness :
    (handle_compromised_signal c6Handler 10 [9] c6Msg).1 = true ∧
      (handle_compromised_signal c6Handler 10 [9] c6Msg).2.mac_key = [9] := by
  have t := claim_C6_signal_validation c6Handler 10 [9] c6Msg
  have hacc : (handle_compromised_signal c6Handler 10 [9] c6Msg).1 = true :=
    t.1.mpr ⟨rfl, rfl, rfl, rfl, by decide, by decide⟩
  exact ⟨hacc, t.2.2.1 hacc⟩

/-- C7 counterexample: two signals created at the same instant that differ
only in their `reason` carry byte-identical signatures — the signature covers
only `signal-tag ‖ ':' ‖ connection_id ‖ ':' ‖ timestamp`, not the `reason`
field (and not in the order the claim states). -/

theorem claim_C7_counterexample :
    ("user_initiated" ≠ "suspected_breach") ∧
      (create_compromised_signal c7Handler 42 "user_initiated").1.reason = "user_initiated" ∧
      (create_compromised_signal c7Handler 42 "suspected_breach").1.reason =
        "suspected_breach" ∧
      (create_compromised_signal c7Handler 42 "user_initiated").1.signature =
        (create_compromised_signal c7Handler 42 "suspected_breach").1.signature :=
  ⟨by decide, rfl, rfl, rfl⟩

/-- C7 (amended): the signature of every signal from
`create_compromised_signal` is the keyed hash, under the current `mac_key`, of
`SIGNAL_STRING ‖ ':' ‖ connection_id ‖ ':' ‖ timestamp` — three fields, in
that order, with the `reason` field not covered — so signals differing only in
`reason` carry identical signatures. -/

theorem claim_C7_signature_covers_three_fields (h : CompromisedProtocolHandler)
    (now : Int) (reason : String) :
    (create_compromised_signal h now reason).1.signature
        = sign_signal h.mac_key
            (SIGNAL_STRING ++ ":" ++ h.connection_id ++ ":" ++ toString now) ∧
      ∀ r₁ r₂ : String,
        (create_compromised_signal h now r₁).1.signature
          = (create_compromised_signal h now r₂).1.signature :=
  ⟨rfl, fun _ _ => rfl⟩

/-- C8: key "destruction" does not disable encryption.  When a compromised
signal is accepted, the session's installed `CryptoManager` keys are left
untouched (only the handler's `mac_key` is overwritten with fresh random
bytes, and the `_on_keys_destroyed` callback merely clears the run flag), so
subsequent `encrypt_packet` calls still succeed with the stale pre-destruction
keys; `KeyRotator.destroy_keys` sets its key references to `None` rather than
overwriting them with fresh random bytes. -/

theorem claim_C8_destruction_leaves_session_keys (s : ServerSession) (now : Int)
    (fresh : List Nat) (m : CompromisedMessage) (s' : ServerSession) (ks : KeySet)
    (hacc : session_handle_compromised s now fresh m = (true, s'))
    (hks : s.session_keys = some ks) :
    s'.session_keys = some ks ∧
      (∀ nonce pt ad : List Nat,
        encrypt_packet s'.session_keys nonce pt ad
          = .ok (nonce ++ aesgcm_encrypt ks.encryption_key nonce pt ad)) ∧
      s'.handler.mac_key = fresh ∧
      (rotator_destroy_keys s.rotator).state.current_keys = none ∧
      (rotator_destroy_keys s.rotator).state.next_keys = none := by
  simp only [session_handle_compromised] at hacc
  by_cases hr : (handle_compromised_signal s.handler now fresh m).1 = true
  · rw [if_pos hr] at hacc
    have hs' : s' = ⟨false, s.session_keys, s.rotator,
        (handle_compromised_signal s.handler now fresh m).2⟩ :=
      ((Prod.mk.injEq _ _ _ _).mp hacc).2.symm
    subst hs'
    refine ⟨hks, ?_, handle_signal_accept_mac_key s.handler now fresh m hr, rfl, rfl⟩
    intro nonce pt ad
    simp only [hks]
    rfl
  · rw [if_neg hr] at hacc
    exact absurd ((Prod.mk.injEq _ _ _ _).mp hacc).1 (by simp)

theorem claim_C8_witness :
    session_handle_compromised c8Session 10 [6] c8Msg = (true, c8After) ∧
      c8Session.session_keys = some ⟨[1], [2], [3], [4]⟩ ∧
      c8After.session_keys = some ⟨[1], [2], [3], [4]⟩ ∧
      c8After.handler.mac_key = [6] ∧
      encrypt_packet c8After.session_keys (List.replicate 12 1) [5] []
        = .ok (List.replicate 12 1 ++ aesgcm_encrypt [1] (List.replicate 12 1) [5] []) := by
  have t := claim_C8_destruction_leaves_session_keys c8Session 10 [6] c8Msg c8After
    ⟨[1], [2], [3], [4]⟩ rfl rfl
  exact ⟨rfl, rfl, t.1, t.2.2.1, t.2.1 _ _ _⟩

/-- C9 counterexample: a truncated frame that `parse_message` accepts.
`c9Frame` declares `payload_length = 10` but only one payload byte (`0x31`,
the digit `1`) remains in the buffer; Python's slice silently truncates and
`json.loads(b"1")` succeeds, so the frame parses to a message instead of
being rejected as malformed. -/

theorem claim_C9_counterexample :
    beBytesToNat ((c9Frame.drop (10 + c9Frame.getD 9 0)).take 4) = 10 ∧
      c9Frame.length = 15 ∧
      parse_message c9Frame = some ⟨16, Json.jnum [49], [0, 0, 0, 0, 0, 0, 0, 0], []⟩ :=
  ⟨by decide, by decide, rfl⟩

/-- C9 (amended): `from_bytes` performs no explicit length validation — it
relies on slice truncation and exceptions.  `parse_message` catches every
exception and returns `None`, so a frame truncated before the end of its
fixed header, id, or 4-byte payload-length field is rejected as a
parse-failure result; but a frame whose declared `payload_length` exceeds
the remaining buffer is not reliably rejected (see the counterexample). -/

theorem claim_C9_truncated_header_rejected (data : List Nat)
    (htr : data.length < 14 + data.getD 9 0) :
    parse_message data = none := by
  simp only [parse_message, from_bytes]
  by_cases h10 : data.length < 10
  · rw [if_pos h10]
    rfl
  · rw [if_neg h10]
    have hpl : ((data.drop (10 + data.getD 9 0)).take 4).length < 4 := by
      simp only [List.length_take, List.length_drop]
      omega
    rw [if_pos hpl]
    rfl

theorem claim_C9_witness :
    ([] : List Nat).length < 14 + ([] : List Nat).getD 9 0 ∧ parse_message [] = none :=
  ⟨by decide, claim_C9_truncated_header_rejected [] (by decide)⟩

/-- C10 counterexample: the punch packet is not `nonce(12) ‖ AEAD-ciphertext`:
`_create_punch_packet` prepends 16 additional random bytes before the
envelope, so the first 12 bytes on the socket are random-prefix bytes, not the
AEAD nonce, and feeding the raw socket bytes to `decrypt_packet` fails. -/

theorem claim_C10_counterexample :
    create_punch_packet (some ⟨[7, 7], [3], [4], [5]⟩) (List.replicate 16 9)
        (List.replicate 12 0) 1
      = .ok (List.replicate 16 9 ++
          (List.replicate 12 0 ++ aesgcm_encrypt [7, 7] (List.replicate 12 0) [1] [])) ∧
      (List.replicate 16 9 ++
          (List.replicate 12 0 ++ aesgcm_encrypt [7, 7] (List.replicate 12 0) [1] [])).take 12
        = List.replicate 12 9 ∧
      (List.replicate 12 9 : List Nat) ≠ List.replicate 12 0 ∧
      decrypt_packet (some ⟨[7, 7], [3], [4], [5]⟩)
        (List.replicate 16 9 ++
          (List.replicate 12 0 ++ aesgcm_encrypt [7, 7] (List.replicate 12 0) [1] [])) []
        = .error .authenticationError :=
  ⟨rfl, by decide, by decide, rfl⟩

/-- C10 (amended): every punch / punch-ack packet is
`random(16) ‖ nonce(12) ‖ AEAD-ciphertext-with-tag`; after stripping the
16-byte random prefix — as the receiving `_parse_packet` does — the remainder
is exactly the `encrypt_packet` envelope, and a receiver holding the session
keys recovers the packet-type byte. -/

theorem claim_C10_punch_packet_envelope (ks : KeySet) (rand16 nonce : List Nat)
    (pt : Nat) (hr : rand16.length = 16) (hn : nonce.length = 12) :
    create_punch_packet (some ks) rand16 nonce pt
        = .ok (rand16 ++ (nonce ++ aesgcm_encrypt ks.encryption_key nonce [pt] [])) ∧
      parse_packet (some ks)
        (rand16 ++ (nonce ++ aesgcm_encrypt ks.encryption_key nonce [pt] [])) = some pt := by
  constructor
  · rfl
  · unfold parse_packet
    have hlen :
        ¬ (rand16 ++ (nonce ++ aesgcm_encrypt ks.encryption_key nonce [pt] [])).length < 17 := by
      simp [aesgcm_encrypt_length, hr, hn]
      omega
    rw [if_neg hlen, List.drop_left' hr,
      decrypt_encrypt_roundtrip ks nonce [pt] [] hn]

theorem claim_C10_witness :
    (List.replicate 16 2 : List Nat).length = 16 ∧
      (List.replicate 12 3 : List Nat).length = 12 ∧
      create_punch_packet (some ⟨[8], [2], [3], [4]⟩) (List.replicate 16 2)
          (List.replicate 12 3) 2
        = .ok (List.replicate 16 2 ++
            (List.replicate 12 3 ++ aesgcm_encrypt [8] (List.replicate 12 3) [2] [])) ∧
      parse_packet (some ⟨[8], [2], [3], [4]⟩)
        (List.replicate 16 2 ++
          (List.replicate 12 3 ++ aesgcm_encrypt [8] (List.replicate 12 3) [2] []))
        = some 2 :=
  ⟨by decide, by decide,
    (claim_C10_punch_packet_envelope ⟨[8], [2], [3], [4]⟩ (List.replicate 16 2)
      (List.replicate 12 3) 2 (by decide) (by decide)).1,
    (claim_C10_punch_packet_envelope ⟨[8], [2], [3], [4]⟩ (List.replicate 16 2)
      (List.replicate 12 3) 2 (by decide) (by decide)).2⟩
